import Mathlib

/-!
Shallow embedding of the AtomGrowth template-inheritance core:
the data model of `src/atomgrowth/models/recipe.py` and
`src/atomgrowth/models/experiment.py`, and the operations of
`src/atomgrowth/core/template_manager.py` (CRUD, inheritance-chain walk,
resolution by root-to-leaf merge, dot-path field access, effective-value
lookup), together with proofs of the specification's properties.

Modelling conventions:
- Python `float` fields carry only literal constants and copied values here
  (no arithmetic), so they are embedded as `ℚ`.
- Python dicts are embedded as association lists in insertion order
  (`dictInsert` replaces in place or appends, like `d[k] = v`); real dicts
  never hold a duplicate key, so theorems that need that invariant take a
  `Nodup` hypothesis on the key list.
- Python's dynamically typed values (override values, custom fields, the
  objects traversed by the dot-path accessor) are embedded as `PyVal`;
  `PyVal.null` is Python `None`, which the source also uses as its
  "absent" marker.
- `datetime.now().isoformat()` is embedded as the fixed string
  `datetimeNow`: every property proved here is insensitive to the clock.
- The `while` loops of `get_inheritance_chain` and `_would_create_cycle`
  are embedded with an explicit fuel argument; the termination theorem for
  claim C3 shows the chosen fuel (`store.length + 1`) is never exhausted.
-/

namespace AtomGrowth

/-- Dynamic (Python) values. `null` is Python `None`; `method` is a bound
method obtained by reading a builtin attribute (e.g. `{}.get`). -/
inductive PyVal where
  | null
  | num (q : ℚ)
  | str (s : String)
  | obj (attrs : List (String × PyVal))
  | dict (entries : List (String × PyVal))
  | list (elems : List PyVal)
  | method (name : String)

instance : Inhabited PyVal := ⟨PyVal.null⟩

/-- Association-list lookup, first match wins (Python `d.get(k)` / `d[k]`). -/
def alookup {α : Type} (k : String) : List (String × α) → Option α
  | [] => none
  | (k0, v) :: rest => if k0 = k then some v else alookup k rest

/-- Python `d[k] = v`: replace the existing entry in place, else append. -/
def dictInsert {α : Type} (l : List (String × α)) (k : String) (v : α) :
    List (String × α) :=
  match l with
  | [] => [(k, v)]
  | (k0, v0) :: rest =>
      if k0 = k then (k, v) :: rest else (k0, v0) :: dictInsert rest k v

/-- Python `d.pop(k, None)` / `del d[k]`: drop the entry with key `k`. -/
def dictPop {α : Type} (l : List (String × α)) (k : String) :
    List (String × α) :=
  match l with
  | [] => []
  | (k0, v0) :: rest => if k0 = k then rest else (k0, v0) :: dictPop rest k

/-- Python `base.update(overlay)`: fold every overlay entry into `base`. -/
def dictUpdate {α : Type} (base overlay : List (String × α)) :
    List (String × α) :=
  overlay.foldl (fun acc kv => dictInsert acc kv.1 kv.2) base

/-- Embeds `TemperatureProfile` from `models/recipe.py`. -/
structure TemperatureProfile where
  ramp_rate_1 : ℚ := 10
  hold_temp_1 : ℚ := 300
  hold_time_1 : ℚ := 10
  ramp_rate_2 : ℚ := 5
  peak_temp : ℚ := 750
  peak_hold_time : ℚ := 15
  cooling_method : String := "natural"
  controlled_cool_rate : ℚ := 10
  deriving DecidableEq

/-- Embeds `GasFlow` from `models/recipe.py`. -/
structure GasFlow where
  ar_flow : ℚ := 100
  h2_flow : ℚ := 0
  total_flow : ℚ := 100
  deriving DecidableEq

/-- Embeds `PrecursorSetup` from `models/recipe.py`. -/
structure PrecursorSetup where
  moo3_amount : ℚ := 5
  s_amount : ℚ := 100
  moo3_position : ℚ := 0
  s_position : ℚ := -15
  moo3_boat_material : String := "alumina"
  s_boat_material : String := "quartz"
  deriving DecidableEq

/-- Embeds `SubstrateInfo` from `models/recipe.py`. -/
structure SubstrateInfo where
  material : String := "SiO2/Si"
  oxide_thickness : ℚ := 300
  prep_method : String := "piranha"
  orientation : String := "(100)"
  size : String := "1cm x 1cm"
  deriving DecidableEq

/-- Stand-in for `datetime.now().isoformat()`; no property proved here
depends on the clock value. -/
def datetimeNow : String := "1970-01-01T00:00:00"

/-- Embeds `RecipeTemplate` from `models/recipe.py`. The `id` and timestamp
defaults are nondeterministic in Python (`uuid4()` / `now()`); `id` is a
required field here and the timestamps default to the clock stand-in. -/
structure RecipeTemplate where
  id : String
  name : String := ""
  description : String := ""
  parent_template_id : Option String := none
  created_at : String := datetimeNow
  modified_at : String := datetimeNow
  temperature : TemperatureProfile := {}
  gas_flow : GasFlow := {}
  precursor : PrecursorSetup := {}
  substrate : SubstrateInfo := {}
  custom_fields : List (String × PyVal) := []
  tags : List String := []

/-- The manager's template map `self._templates`, in insertion order. -/
abbrev Store := List (String × RecipeTemplate)

/-- Attribute view of a `TemperatureProfile` instance, as seen by Python's
`hasattr`/`getattr` in `_get_field_value`. -/
def TemperatureProfile.toPy (t : TemperatureProfile) : PyVal :=
  .obj [("ramp_rate_1", .num t.ramp_rate_1), ("hold_temp_1", .num t.hold_temp_1),
        ("hold_time_1", .num t.hold_time_1), ("ramp_rate_2", .num t.ramp_rate_2),
        ("peak_temp", .num t.peak_temp), ("peak_hold_time", .num t.peak_hold_time),
        ("cooling_method", .str t.cooling_method),
        ("controlled_cool_rate", .num t.controlled_cool_rate)]

/-- Attribute view of a `GasFlow` instance. -/
def GasFlow.toPy (g : GasFlow) : PyVal :=
  .obj [("ar_flow", .num g.ar_flow), ("h2_flow", .num g.h2_flow),
        ("total_flow", .num g.total_flow)]

/-- Attribute view of a `PrecursorSetup` instance. -/
def PrecursorSetup.toPy (p : PrecursorSetup) : PyVal :=
  .obj [("moo3_amount", .num p.moo3_amount), ("s_amount", .num p.s_amount),
        ("moo3_position", .num p.moo3_position), ("s_position", .num p.s_position),
        ("moo3_boat_material", .str p.moo3_boat_material),
        ("s_boat_material", .str p.s_boat_material)]

/-- Attribute view of a `SubstrateInfo` instance. -/
def SubstrateInfo.toPy (s : SubstrateInfo) : PyVal :=
  .obj [("material", .str s.material), ("oxide_thickness", .num s.oxide_thickness),
        ("prep_method", .str s.prep_method), ("orientation", .str s.orientation),
        ("size", .str s.size)]

/-- Attribute view of a `RecipeTemplate` instance (its dataclass members). -/
def RecipeTemplate.toPy (t : RecipeTemplate) : PyVal :=
  .obj [("id", .str t.id), ("name", .str t.name), ("description", .str t.description),
        ("parent_template_id",
          match t.parent_template_id with
          | none => .null
          | some p => .str p),
        ("created_at", .str t.created_at), ("modified_at", .str t.modified_at),
        ("temperature", t.temperature.toPy), ("gas_flow", t.gas_flow.toPy),
        ("precursor", t.precursor.toPy), ("substrate", t.substrate.toPy),
        ("custom_fields", .dict t.custom_fields),
        ("tags", .list (t.tags.map .str))]

/-- Read-only builtin attributes of Python's non-`obj` values (a
representative subset): `hasattr` answers true for these, `getattr`
returns a bound method (or, for `float.real` / `float.imag`, a number),
and `setattr` on them raises `AttributeError`. Class-level methods of the
dataclass instances themselves are not modelled: assigning through such a
name succeeds in Python anyway (an instance attribute shadows the class),
so their omission hides no failure mode. -/
def PyVal.builtinAttr : PyVal → String → Option PyVal
  | .dict _, name =>
    if name = "get" ∨ name = "keys" ∨ name = "values" ∨ name = "items" ∨
        name = "pop" ∨ name = "update" ∨ name = "clear" then
      some (.method name)
    else none
  | .list _, name =>
    if name = "append" ∨ name = "extend" ∨ name = "pop" ∨ name = "remove" ∨
        name = "index" ∨ name = "count" then
      some (.method name)
    else none
  | .str _, name =>
    if name = "upper" ∨ name = "lower" ∨ name = "strip" ∨ name = "split" ∨
        name = "replace" then
      some (.method name)
    else none
  | .num q, name =>
    if name = "real" then some (.num q)
    else if name = "imag" then some (.num 0)
    else if name = "conjugate" ∨ name = "is_integer" ∨ name = "hex" then
      some (.method name)
    else none
  | _, _ => none

/-- Python `getattr(v, name)` as a partial lookup: the instance members of
an `obj` (its dataclass fields), and the modelled read-only builtin
attributes of every other value — `hasattr({}, "get")` is true in Python,
and the builtin wins before the dict's key lookup is even tried. -/
def PyVal.getattrOpt : PyVal → String → Option PyVal
  | .obj attrs, name => alookup name attrs
  | v, name => v.builtinAttr name

/-- Python `hasattr(v, name)` under the same attribute model. -/
def PyVal.hasattrB (v : PyVal) (name : String) : Bool :=
  (v.getattrOpt name).isSome

/-- Character-level worker for `splitDot`. -/
def splitDotAux : List Char → List Char → List String
  | [], acc => [String.mk acc.reverse]
  | c :: cs, acc =>
    if c = '.' then String.mk acc.reverse :: splitDotAux cs []
    else splitDotAux cs (c :: acc)

/-- Python `path.split('.')` (e.g. `"".split('.') == ['']`,
`"a..b".split('.') == ['a', '', 'b']`), embedded structurally so it
computes by reduction. -/
def splitDot (s : String) : List String :=
  splitDotAux s.toList []

/-- Loop body of `TemplateManager._get_field_value`, one path segment per
step: `None` propagates, named members are preferred, dicts fall back to
`get` (whose miss yields `None`), anything else yields `None`. -/
def getFieldGo : List String → PyVal → PyVal
  | [], cur => cur
  | part :: rest, cur =>
    match cur with
    | .null => .null
    | _ =>
      match cur.getattrOpt part with
      | some v => getFieldGo rest v
      | none =>
        match cur with
        | .dict entries => getFieldGo rest ((alookup part entries).getD .null)
        | _ => .null

/-- Embeds `TemplateManager._get_field_value(obj, path)`. -/
def _get_field_value (obj : PyVal) (path : String) : PyVal :=
  getFieldGo (splitDot path) obj

/-- Write-back of a possibly mutated member during path navigation: Python
mutates the member in place through the alias, which the pure embedding
models by reattaching the rebuilt value to its `obj`. On every other value
nothing is written back (a bound builtin method is not reattached). -/
def PyVal.setattrReplace (v : PyVal) (name : String) (x : PyVal) : PyVal :=
  match v with
  | .obj attrs => .obj (dictInsert attrs name x)
  | other => other

/-- Python `setattr(cur, name, x)` reached through the `hasattr` guard,
with its failure mode explicit: on an `obj` the instance member is
assigned; on every other value the guard can only have passed on a
read-only builtin attribute, where `setattr` raises `AttributeError`
(e.g. `setattr({}, "get", v)`). -/
def setAttrExc (v : PyVal) (name : String) (x : PyVal) : Except String PyVal :=
  match v with
  | .obj attrs => .ok (.obj (dictInsert attrs name x))
  | _ => .error "AttributeError"

/-- Loop body of `TemplateManager._set_field_value`, with Python's
exceptions explicit: navigate every segment but the last (creating missing
dict keys as `{}`; the hasattr-then-getattr pair is one attribute lookup,
sound because `hasattr` is defined by `getattr` succeeding), then assign
the final segment by member-assignment — `setAttrExc`, which raises on a
read-only builtin attribute — or key-assignment. `.ok` carries the
returned bool and the object after the call (Python mutates in place; the
rebuilt value is written back here, a no-op on bound methods). -/
def setFieldGo : List String → PyVal → PyVal → Except String (Bool × PyVal)
  | [], cur, _ => .ok (false, cur)
  | [last], cur, value =>
    match cur.getattrOpt last with
    | some _ =>
      match setAttrExc cur last value with
      | .ok cur2 => .ok (true, cur2)
      | .error err => .error err
    | none =>
      match cur with
      | .dict entries => .ok (true, .dict (dictInsert entries last value))
      | _ => .ok (false, cur)
  | part :: rest, cur, value =>
    match cur.getattrOpt part with
    | some sub =>
      match setFieldGo rest sub value with
      | .ok r => .ok (r.1, cur.setattrReplace part r.2)
      | .error err => .error err
    | none =>
      match cur with
      | .dict entries =>
        match setFieldGo rest ((alookup part entries).getD (.dict [])) value with
        | .ok r => .ok (r.1, .dict (dictInsert entries part r.2))
        | .error err => .error err
      | _ => .ok (false, cur)

/-- Embeds `TemplateManager._set_field_value(obj, path, value)` with
exceptions explicit; `.ok` is (returned bool, object after the call),
`.error` a raised exception. -/
def _set_field_value (obj : PyVal) (path : String) (value : PyVal) :
    Except String (Bool × PyVal) :=
  setFieldGo (splitDot path) obj value

/-- Python `getattr` with its failure mode explicit: raises
`AttributeError` (an `Except.error`) when the member is missing. -/
def getattrExc (v : PyVal) (name : String) : Except String PyVal :=
  match v.getattrOpt name with
  | some x => .ok x
  | none => .error "AttributeError"

/-- Version of `_get_field_value` with every hazardous primitive made explicit:
`getattr` is only reached behind `hasattr`, so the `AttributeError` arm is
claimed (and proved, claim C10) unreachable. -/
def getFieldGoExc : List String → PyVal → Except String PyVal
  | [], cur => .ok cur
  | part :: rest, cur =>
    match cur with
    | .null => .ok .null
    | _ =>
      if cur.hasattrB part then
        match getattrExc cur part with
        | .ok v => getFieldGoExc rest v
        | .error e => .error e
      else
        match cur with
        | .dict entries => getFieldGoExc rest ((alookup part entries).getD .null)
        | _ => .ok .null

/-- Exception-explicit form of `_get_field_value`. -/
def _get_field_value_exc (obj : PyVal) (path : String) : Except String PyVal :=
  getFieldGoExc (splitDot path) obj

/-- Embeds `TemplateManager.get_all_field_paths`: every parameter-section field,
prefixed with its section name, in dataclass declaration order. -/
def get_all_field_paths : List String :=
  ["temperature.ramp_rate_1", "temperature.hold_temp_1",
   "temperature.hold_time_1", "temperature.ramp_rate_2",
   "temperature.peak_temp", "temperature.peak_hold_time",
   "temperature.cooling_method", "temperature.controlled_cool_rate",
   "gas_flow.ar_flow", "gas_flow.h2_flow", "gas_flow.total_flow",
   "precursor.moo3_amount", "precursor.s_amount", "precursor.moo3_position",
   "precursor.s_position", "precursor.moo3_boat_material",
   "precursor.s_boat_material",
   "substrate.material", "substrate.oxide_thickness",
   "substrate.prep_method", "substrate.orientation", "substrate.size"]

/-- Outcome of `TemplateManager.get_inheritance_chain`: the returned list,
the `Circular inheritance detected` `ValueError`, or exhaustion of the
embedding's fuel (proved unreachable for the fuel used, claim C3). -/
inductive ChainResult where
  | ok (chain : List RecipeTemplate)
  | circular
  | outOfFuel

/-- The `while current_id:` loop of `get_inheritance_chain`. Python string
truthiness makes both `None` and `""` end the walk; a revisited id raises;
an id absent from the store breaks the loop. Fuel only ticks on iterations
that actually recurse. -/
def chainAux (store : Store) :
    Option String → Nat → List String → List RecipeTemplate → ChainResult
  | none, _, _, acc => .ok acc.reverse
  | some cid, fuel, visited, acc =>
    if cid = "" then .ok acc.reverse
    else
      match fuel with
      | 0 => .outOfFuel
      | fuel' + 1 =>
        if cid ∈ visited then .circular
        else
          match alookup cid store with
          | none => .ok acc.reverse
          | some t =>
              chainAux store t.parent_template_id fuel' (cid :: visited) (t :: acc)

/-- Embeds `TemplateManager.get_inheritance_chain(template_id)`:
`[template, parent, grandparent, ..., root]`. -/
def get_inheritance_chain (store : Store) (template_id : String) : ChainResult :=
  chainAux store (some template_id) (store.length + 1) [] []

/-- The `while current_id:` loop of `TemplateManager._would_create_cycle`,
walking upward from the prospective parent with the new template's own id
pre-seeded into `visited`. -/
def cycleAux (store : Store) : Option String → Nat → List String → Bool
  | none, _, _ => false
  | some cid, fuel, visited =>
    if cid = "" then false
    else
      match fuel with
      | 0 => true
      | fuel' + 1 =>
        if cid ∈ visited then true
        else
          match alookup cid store with
          | none => false
          | some t => cycleAux store t.parent_template_id fuel' (cid :: visited)

/-- Embeds `TemplateManager._would_create_cycle(template_id, new_parent_id)`. -/
def _would_create_cycle (store : Store) (template_id new_parent_id : String) :
    Bool :=
  cycleAux store (some new_parent_id) (store.length + 1) [template_id]

/-- Embeds `TemplateManager.create_template`. The fresh `uuid4()` id is an
explicit argument (`new_id`) of the embedding. -/
def create_template (store : Store) (new_id name : String)
    (parent_id : Option String) (description : String) :
    Except String (Store × RecipeTemplate) :=
  let template : RecipeTemplate := { id := new_id, name := name, description := description }
  match parent_id with
  | some pid =>
    if pid = "" then .ok (dictInsert store template.id template, template)
    else
      match alookup pid store with
      | none => .error "Parent template not found"
      | some _ =>
        if _would_create_cycle store template.id pid then
          .error "Cannot create circular inheritance"
        else
          let template2 := { template with parent_template_id := some pid }
          .ok (dictInsert store template2.id template2, template2)
  | none => .ok (dictInsert store template.id template, template)

/-- Embeds `TemplateManager.update_template`: only an existence check on the id,
then a wholesale replace with a fresh `modified_at` stamp. -/
def update_template (store : Store) (template : RecipeTemplate) :
    Except String Store :=
  match alookup template.id store with
  | none => .error "Template not found"
  | some _ =>
    let stamped := { template with modified_at := datetimeNow }
    .ok (dictInsert store template.id stamped)

/-- Embeds `TemplateManager.delete_template`: `False` for an unknown id; a
`ValueError` naming the first template that inherits from it; otherwise
remove the entry and return `True`. -/
def delete_template (store : Store) (template_id : String) :
    Except String (Store × Bool) :=
  match alookup template_id store with
  | none => .ok (store, false)
  | some _ =>
    match store.find? (fun e => e.2.parent_template_id == some template_id) with
    | some e =>
        .error ("Cannot delete: template " ++ e.2.name ++
          " inherits from this template")
    | none => .ok (dictPop store template_id, true)

/-- The per-section loop of `TemplateManager._merge_dataclass` on
`TemperatureProfile`: deep-copy the base, then overwrite every field with
the overlay's value. -/
def _merge_dataclass_temperature (base overlay : TemperatureProfile) :
    TemperatureProfile :=
  { base with
    ramp_rate_1 := overlay.ramp_rate_1, hold_temp_1 := overlay.hold_temp_1,
    hold_time_1 := overlay.hold_time_1, ramp_rate_2 := overlay.ramp_rate_2,
    peak_temp := overlay.peak_temp, peak_hold_time := overlay.peak_hold_time,
    cooling_method := overlay.cooling_method,
    controlled_cool_rate := overlay.controlled_cool_rate }

/-- The `_merge_dataclass` loop on `GasFlow`. -/
def _merge_dataclass_gas_flow (base overlay : GasFlow) : GasFlow :=
  { base with
    ar_flow := overlay.ar_flow, h2_flow := overlay.h2_flow,
    total_flow := overlay.total_flow }

/-- The `_merge_dataclass` loop on `PrecursorSetup`. -/
def _merge_dataclass_precursor (base overlay : PrecursorSetup) : PrecursorSetup :=
  { base with
    moo3_amount := overlay.moo3_amount, s_amount := overlay.s_amount,
    moo3_position := overlay.moo3_position, s_position := overlay.s_position,
    moo3_boat_material := overlay.moo3_boat_material,
    s_boat_material := overlay.s_boat_material }

/-- The `_merge_dataclass` loop on `SubstrateInfo`. -/
def _merge_dataclass_substrate (base overlay : SubstrateInfo) : SubstrateInfo :=
  { base with
    material := overlay.material, oxide_thickness := overlay.oxide_thickness,
    prep_method := overlay.prep_method, orientation := overlay.orientation,
    size := overlay.size }

/-- Embeds `TemplateManager._merge_templates(base, overlay)`. Sections are merged
field-wise (overlay wins unconditionally), custom fields key-wise (overlay
wins), tags as a set union (Python `list(set(a) | set(b))` leaves the order
unspecified; this embedding fixes one concrete order via `dedup`), and the
metadata is the overlay's — except `description`, where Python's
`overlay.description or result.description` keeps the base's text whenever
the overlay's is empty. `id` stays the base's (`deepcopy` of base, never
reassigned). -/
def _merge_templates (base overlay : RecipeTemplate) : RecipeTemplate :=
  { base with
    temperature := _merge_dataclass_temperature base.temperature overlay.temperature,
    gas_flow := _merge_dataclass_gas_flow base.gas_flow overlay.gas_flow,
    precursor := _merge_dataclass_precursor base.precursor overlay.precursor,
    substrate := _merge_dataclass_substrate base.substrate overlay.substrate,
    custom_fields := dictUpdate base.custom_fields overlay.custom_fields,
    tags := (base.tags ++ overlay.tags).dedup,
    name := overlay.name,
    description :=
      if overlay.description = "" then base.description else overlay.description,
    parent_template_id := overlay.parent_template_id,
    created_at := overlay.created_at,
    modified_at := overlay.modified_at }

/-- Embeds `TemplateManager.resolve_template(template_id)`: `ValueError` when the
id is unknown; otherwise fold the inheritance chain root-to-leaf through
`_merge_templates`, starting from an all-defaults template stamped with the
target's id and name. -/
def resolve_template (store : Store) (template_id : String) :
    Except String RecipeTemplate :=
  match alookup template_id store with
  | none => .error "Template not found"
  | some t0 =>
    match get_inheritance_chain store template_id with
    | .circular => .error "Circular inheritance detected"
    | .outOfFuel => .error "out of fuel"
    | .ok chain =>
      let resolved : RecipeTemplate := { id := template_id, name := t0.name }
      .ok (chain.reverse.foldl _merge_templates resolved)

/-- The chain walk of `TemplateManager.get_effective_value`: the first
template whose value at the path is not `None` wins, together with its id. -/
def effective_walk (field_path : String) :
    List RecipeTemplate → Option (PyVal × String)
  | [] => none
  | t :: rest =>
    match _get_field_value t.toPy field_path with
    | .null => effective_walk field_path rest
    | v => some (v, t.id)

/-- The all-defaults `RecipeTemplate()` consulted when the chain yields no
value (its fresh `uuid4()` id is irrelevant: only parameter paths are
queried on it). -/
def default_template : RecipeTemplate := { id := "default" }

/-- Embeds `TemplateManager.get_effective_value(template_id, field_path)`:
`(value, source_template_id)`, with a `None` source when the default is
used. Propagates the chain walk's `CircularInheritance` error. -/
def get_effective_value (store : Store) (template_id field_path : String) :
    Except String (PyVal × Option String) :=
  match get_inheritance_chain store template_id with
  | .circular => .error "Circular inheritance detected"
  | .outOfFuel => .error "out of fuel"
  | .ok chain =>
    match effective_walk field_path chain with
    | some (v, src) => .ok (v, some src)
    | none => .ok (_get_field_value default_template.toPy field_path, none)

/-- Embeds `Experiment` from `models/experiment.py` (the fields the override
model touches; statuses, notes and attachment links are carried opaquely). -/
structure Experiment where
  id : String
  name : String := ""
  template_id : String := ""
  status : String := "planned"
  overrides : List (String × PyVal) := []
  override_reasons : List (String × String) := []
  notes : String := ""
  tags : List String := []

/-- Embeds `Experiment.set_override(field_path, value, reason)`: insert/replace
the override; record the justification only when `reason` is non-empty
(Python truthiness of `if reason:`). -/
def Experiment.set_override (e : Experiment) (field_path : String)
    (value : PyVal) (reason : String) : Experiment :=
  let e1 := { e with overrides := dictInsert e.overrides field_path value }
  if reason = "" then e1
  else { e1 with override_reasons := dictInsert e1.override_reasons field_path reason }

/-- Embeds `Experiment.remove_override(field_path)`: drop both the override and
its justification; `pop(..., None)` is a silent no-op on a missing key. -/
def Experiment.remove_override (e : Experiment) (field_path : String) :
    Experiment :=
  { e with
    overrides := dictPop e.overrides field_path,
    override_reasons := dictPop e.override_reasons field_path }

/-- Embeds `Experiment.is_overridden(field_path)`. -/
def Experiment.is_overridden (e : Experiment) (field_path : String) : Bool :=
  (alookup field_path e.overrides).isSome

/-- The experiment-side effective value, as computed at
`ui/views/experiment_editor.py:595-598`: the override when the path is in
`experiment.overrides`, else the resolved template's value at the path. -/
def effective_value (e : Experiment) (resolved : RecipeTemplate)
    (field_path : String) : PyVal :=
  match alookup field_path e.overrides with
  | some v => v
  | none => _get_field_value resolved.toPy field_path

/-- The parent reference of `t` resolves inside `store`: it is either
absent or the nonempty id of a stored template. Reachable stores built by
`create_template` alone satisfy this for every entry; `update_template`
can break it (it validates nothing about the parent). -/
def parent_ok (store : Store) (t : RecipeTemplate) : Bool :=
  match t.parent_template_id with
  | none => true
  | some p => decide (p ≠ "") && (alookup p store).isSome

/-- Test fixture: root template `A` with an explicit `peak_temp = 700`. -/
def tmplA : RecipeTemplate :=
  { id := "A", name := "A", temperature := { peak_temp := 700 } }

/-- Test fixture: `B` inherits from `A`, keeping every type default. -/
def tmplB : RecipeTemplate :=
  { id := "B", name := "B", parent_template_id := some "A" }

/-- Test fixture: `C` inherits from `B`, keeping every type default. -/
def tmplC : RecipeTemplate :=
  { id := "C", name := "C", parent_template_id := some "B" }

/-- Test fixture: the store holding the three-level chain A ← B ← C. -/
def storeABC : Store := [("A", tmplA), ("B", tmplB), ("C", tmplC)]

/-- Test fixture: root `A` with every default, for the update-cycle state. -/
def updA : RecipeTemplate := { id := "A", name := "A" }

/-- Test fixture: `A` rewritten to name its own child `B` as its parent. -/
def updA2 : RecipeTemplate :=
  { id := "A", name := "A", parent_template_id := some "B" }

/-- Test fixture: store where `B` inherits from the root `A`. -/
def storeAB : Store := [("A", updA), ("B", tmplB)]

/-- Test fixture: merge base carrying a non-empty description. -/
def mrgBase : RecipeTemplate := { id := "base", description := "base description" }

/-- Test fixture: merge overlay with an empty description. -/
def mrgOverlay : RecipeTemplate := { id := "over", name := "over" }

/-- Test fixture: a template whose parent id `Z` is dangling (no stored
template has that id) — reachable through `update_template`, which does
not validate the parent reference. -/
def dangA : RecipeTemplate :=
  { id := "A", name := "A", parent_template_id := some "Z" }

/-- Test fixture: single-entry store with a dangling parent reference. -/
def storeDangling : Store := [("A", dangA)]

/-- Test fixture: root template with a duplicated tag. -/
def dupTagT : RecipeTemplate :=
  { id := "R", name := "R", tags := ["mos2", "mos2"] }

/-- Test fixture: single-entry store holding the duplicated-tag root. -/
def storeDupTag : Store := [("R", dupTagT)]

/-- Test fixture: a template that is its own parent (reachable through
`update_template`). -/
def selfA : RecipeTemplate :=
  { id := "A", name := "A", parent_template_id := some "A",
    temperature := { peak_temp := 700 } }

/-- Test fixture: single-entry store holding the self-parented template. -/
def storeSelf : Store := [("A", selfA)]

/-- Test fixture: a freshly created experiment with no overrides. -/
def expE : Experiment := { id := "E1", name := "run-1", template_id := "C" }

/-- A lookup miss means no entry carries the key. -/
theorem alookup_eq_none_iff {α : Type} (k : String) (l : List (String × α)) :
    alookup k l = none ↔ ∀ e ∈ l, e.1 ≠ k := by
  induction l with
  | nil => simp [alookup]
  | cons hd tl ih =>
    obtain ⟨k0, v⟩ := hd
    by_cases h : k0 = k <;> simp [alookup, h, ih]

/-- A lookup hit puts the key among the stored keys. -/
theorem mem_keys_of_alookup_eq_some {α : Type} {k : String}
    {l : List (String × α)} {v : α} (h : alookup k l = some v) :
    k ∈ l.map Prod.fst := by
  induction l with
  | nil => simp [alookup] at h
  | cons hd tl ih =>
    obtain ⟨k0, v0⟩ := hd
    by_cases hk : k0 = k
    · simp [hk]
    · simp only [alookup, if_neg hk] at h
      simpa using Or.inr (ih h)

/-- A lookup hit returns one of the stored values. -/
theorem alookup_eq_some_mem {α : Type} {k : String} {l : List (String × α)}
    {v : α} (h : alookup k l = some v) : (k, v) ∈ l := by
  induction l with
  | nil => simp [alookup] at h
  | cons hd tl ih =>
    obtain ⟨k0, v0⟩ := hd
    by_cases hk : k0 = k
    · subst hk
      have hv : v0 = v := by simpa [alookup] using h
      subst hv
      exact List.mem_cons_self _ _
    · have h' : alookup k tl = some v := by simpa [alookup, hk] using h
      exact List.mem_cons_of_mem _ (ih h')

/-- Inserting a fresh key appends the new entry. -/
theorem dictInsert_of_not_mem {α : Type} {k : String} {l : List (String × α)}
    (v : α) (h : ∀ e ∈ l, e.1 ≠ k) : dictInsert l k v = l ++ [(k, v)] := by
  induction l with
  | nil => simp [dictInsert]
  | cons hd tl ih =>
    obtain ⟨k0, v0⟩ := hd
    have hk : k0 ≠ k := h (k0, v0) (by simp)
    simp only [dictInsert, if_neg hk, List.cons_append, List.cons.injEq, true_and]
    exact ih fun e he => h e (by simp [he])

/-- Popping a key no entry carries is the identity. -/
theorem dictPop_of_not_mem {α : Type} {k : String} {l : List (String × α)}
    (h : ∀ e ∈ l, e.1 ≠ k) : dictPop l k = l := by
  induction l with
  | nil => simp [dictPop]
  | cons hd tl ih =>
    obtain ⟨k0, v0⟩ := hd
    have hk : k0 ≠ k := h (k0, v0) (by simp)
    simp only [dictPop, if_neg hk, List.cons.injEq, true_and]
    exact ih fun e he => h e (by simp [he])

/-- Popping the key just appended restores the original list. -/
theorem dictPop_append_single {α : Type} {k : String} {l : List (String × α)}
    (v : α) (h : ∀ e ∈ l, e.1 ≠ k) : dictPop (l ++ [(k, v)]) k = l := by
  induction l with
  | nil => simp [dictPop]
  | cons hd tl ih =>
    obtain ⟨k0, v0⟩ := hd
    have hk : k0 ≠ k := h (k0, v0) (by simp)
    simp only [List.cons_append, dictPop, if_neg hk, List.cons.injEq, true_and]
    exact ih fun e he => h e (by simp [he])

/-- After popping a key from a duplicate-free dict, looking it up misses. -/
theorem alookup_dictPop_self {α : Type} {k : String} {l : List (String × α)}
    (h : (l.map Prod.fst).Nodup) : alookup k (dictPop l k) = none := by
  induction l with
  | nil => simp [dictPop, alookup]
  | cons hd tl ih =>
    obtain ⟨k0, v0⟩ := hd
    simp only [List.map_cons, List.nodup_cons] at h
    by_cases hk : k0 = k
    · subst hk
      simp only [dictPop, if_pos rfl]
      rw [alookup_eq_none_iff]
      intro e he heq
      exact h.1 (heq ▸ List.mem_map_of_mem Prod.fst he)
    · simp only [dictPop, if_neg hk, alookup, if_neg hk]
      exact ih h.2

/-- Popping one key does not disturb lookups of another. -/
theorem alookup_dictPop_ne {α : Type} {k k' : String} (l : List (String × α))
    (h : k' ≠ k) : alookup k' (dictPop l k) = alookup k' l := by
  induction l with
  | nil => simp [dictPop]
  | cons hd tl ih =>
    obtain ⟨k0, v0⟩ := hd
    by_cases hk : k0 = k
    · subst hk
      simp [dictPop, alookup, Ne.symm h]
    · by_cases hk' : k0 = k' <;> simp [dictPop, alookup, hk, hk', h, ih]

/-- Keys after insertion: the inserted key or an original key. -/
theorem mem_keys_dictInsert {α : Type} {x k : String} {v : α}
    {l : List (String × α)} (h : x ∈ (dictInsert l k v).map Prod.fst) :
    x = k ∨ x ∈ l.map Prod.fst := by
  induction l with
  | nil =>
    left
    simpa [dictInsert] using h
  | cons hd tl ih =>
    obtain ⟨k0, v0⟩ := hd
    by_cases hk : k0 = k
    · subst hk
      simp only [dictInsert] at h
      rw [if_true] at h
      simp only [List.map_cons, List.mem_cons] at h
      rcases h with h1 | h2
      · exact Or.inl h1
      · exact Or.inr (by simp [h2])
    · simp only [dictInsert, if_neg hk, List.map_cons, List.mem_cons] at h
      rcases h with h1 | h2
      · exact Or.inr (by simp [h1])
      · rcases ih h2 with h3 | h4
        · exact Or.inl h3
        · exact Or.inr (by simp [h4])

/-- Insertion preserves freedom from duplicate keys. -/
theorem nodup_keys_dictInsert {α : Type} {l : List (String × α)} (k : String)
    (v : α) (h : (l.map Prod.fst).Nodup) :
    ((dictInsert l k v).map Prod.fst).Nodup := by
  induction l with
  | nil => simp [dictInsert]
  | cons hd tl ih =>
    obtain ⟨k0, v0⟩ := hd
    simp only [List.map_cons, List.nodup_cons] at h
    by_cases hk : k0 = k
    · subst hk
      simpa [dictInsert, List.nodup_cons] using h
    · simp only [dictInsert, if_neg hk, List.map_cons, List.nodup_cons]
      refine ⟨fun hmem => ?_, ih h.2⟩
      rcases mem_keys_dictInsert hmem with h3 | h4
      · exact hk h3
      · exact h.1 h4

/-- Folding a duplicate-free overlay of all-fresh keys into a dict appends
the overlay entries in order. -/
theorem dictUpdate_eq_append {α : Type} :
    ∀ (overlay acc : List (String × α)),
      (overlay.map Prod.fst).Nodup →
      (∀ e ∈ overlay, e.1 ∉ acc.map Prod.fst) →
      dictUpdate acc overlay = acc ++ overlay := by
  intro overlay
  induction overlay with
  | nil =>
    intro acc _ _
    simp [dictUpdate]
  | cons hd tl ih =>
    intro acc hnodup hfresh
    obtain ⟨k, v⟩ := hd
    simp only [List.map_cons, List.nodup_cons] at hnodup
    have hins : dictInsert acc k v = acc ++ [(k, v)] := by
      apply dictInsert_of_not_mem
      intro e he heq
      have hkin : k ∈ acc.map Prod.fst := by
        rw [← heq]
        exact List.mem_map_of_mem Prod.fst he
      exact hfresh (k, v) (by simp) hkin
    have hstep : dictUpdate acc ((k, v) :: tl) = dictUpdate (dictInsert acc k v) tl := by
      simp [dictUpdate]
    rw [hstep, hins, ih (acc ++ [(k, v)]) hnodup.2]
    · simp
    · intro e he hmem
      rw [List.map_append] at hmem
      rcases List.mem_append.mp hmem with h1 | h2
      · exact hfresh e (by simp [he]) h1
      · have : e.1 = k := by simpa using h2
        exact hnodup.1 (this ▸ List.mem_map_of_mem Prod.fst he)

/-- Updating an empty dict with a duplicate-free overlay reproduces a duplicate-free overlay exactly. -/
theorem dictUpdate_nil {α : Type} (overlay : List (String × α))
    (h : (overlay.map Prod.fst).Nodup) : dictUpdate [] overlay = overlay := by
  simpa using dictUpdate_eq_append overlay [] h (by simp)

/-- Unfolding: the chain walk stops at once on a `None` id. -/
theorem chainAux_none (store : Store) (fuel : Nat) (visited : List String)
    (acc : List RecipeTemplate) :
    chainAux store none fuel visited acc = .ok acc.reverse := by
  cases fuel <;> rfl

/-- Unfolding: one iteration of the chain walk on a present, fresh,
nonempty id. -/
theorem chainAux_step (store : Store) {cid : String} (fuel : Nat)
    {visited : List String} (acc : List RecipeTemplate)
    (hc : cid ≠ "") (hv : cid ∉ visited) :
    chainAux store (some cid) (fuel + 1) visited acc =
      match alookup cid store with
      | none => .ok acc.reverse
      | some t =>
          chainAux store t.parent_template_id fuel (cid :: visited) (t :: acc) := by
  simp [chainAux, hc, hv]

/-- A successful chain walk extends the reversed accumulator. -/
theorem chainAux_ok_extends (store : Store) :
    ∀ (fuel : Nat) (cur : Option String) (visited : List String)
      (acc l : List RecipeTemplate),
      chainAux store cur fuel visited acc = ChainResult.ok l →
      ∃ suf, l = acc.reverse ++ suf := by
  intro fuel
  induction fuel with
  | zero =>
    intro cur visited acc l h
    cases cur with
    | none =>
      have hl : acc.reverse = l := by simpa [chainAux] using h
      exact ⟨[], by simp [hl]⟩
    | some cid =>
      by_cases hc : cid = ""
      · have hl : acc.reverse = l := by simpa [chainAux, hc] using h
        exact ⟨[], by simp [hl]⟩
      · simp [chainAux, hc] at h
  | succ fuel ih =>
    intro cur visited acc l h
    cases cur with
    | none =>
      have hl : acc.reverse = l := by simpa [chainAux] using h
      exact ⟨[], by simp [hl]⟩
    | some cid =>
      by_cases hc : cid = ""
      · have hl : acc.reverse = l := by simpa [chainAux, hc] using h
        exact ⟨[], by simp [hl]⟩
      · by_cases hv : cid ∈ visited
        · simp [chainAux, hc, hv] at h
        · rw [chainAux_step store fuel acc hc hv] at h
          cases hlook : alookup cid store with
          | none =>
            rw [hlook] at h
            have hl : acc.reverse = l := by simpa using h
            exact ⟨[], by simp [hl]⟩
          | some t =>
            rw [hlook] at h
            obtain ⟨suf, hsuf⟩ := ih _ _ _ _ h
            exact ⟨t :: suf, by simp [hsuf]⟩

/-- The fuel `store.length + 1` given to the walk is never exhausted: the
visited set grows inside the store's key set on every iteration. -/
theorem chainAux_ne_outOfFuel (store : Store) :
    ∀ (fuel : Nat) (cur : Option String) (visited : List String)
      (acc : List RecipeTemplate),
      ((store.map Prod.fst).toFinset \ visited.toFinset).card < fuel →
      chainAux store cur fuel visited acc ≠ ChainResult.outOfFuel := by
  intro fuel
  induction fuel with
  | zero =>
    intro cur visited acc h
    exact absurd h (Nat.not_lt_zero _)
  | succ fuel ih =>
    intro cur visited acc h
    cases cur with
    | none => simp [chainAux]
    | some cid =>
      by_cases hc : cid = ""
      · simp [chainAux, hc]
      · by_cases hv : cid ∈ visited
        · simp [chainAux, hc, hv]
        · rw [chainAux_step store fuel acc hc hv]
          cases hlook : alookup cid store with
          | none => simp
          | some t =>
            have hmem : cid ∈ (store.map Prod.fst).toFinset :=
              List.mem_toFinset.mpr (mem_keys_of_alookup_eq_some hlook)
            have hnotv : cid ∉ visited.toFinset :=
              fun hx => hv (List.mem_toFinset.mp hx)
            have hcard :
                ((store.map Prod.fst).toFinset \ (cid :: visited).toFinset).card <
                ((store.map Prod.fst).toFinset \ visited.toFinset).card := by
              have hin : cid ∈ (store.map Prod.fst).toFinset \ visited.toFinset :=
                Finset.mem_sdiff.mpr ⟨hmem, hnotv⟩
              have hsub : (store.map Prod.fst).toFinset \ (cid :: visited).toFinset =
                  ((store.map Prod.fst).toFinset \ visited.toFinset).erase cid := by
                ext x
                simp only [Finset.mem_sdiff, Finset.mem_erase, List.toFinset_cons,
                  Finset.mem_insert, List.mem_toFinset]
                tauto
              rw [hsub]
              exact Finset.card_erase_lt_of_mem hin
            have hlt :
                ((store.map Prod.fst).toFinset \ (cid :: visited).toFinset).card < fuel := by
              omega
            exact ih t.parent_template_id (cid :: visited) (t :: acc) hlt

/-- A successful chain walk over a store whose parent references all
resolve ends, when it produced anything at all, in a template without a
parent reference. -/
theorem chainAux_getLast (store : Store)
    (hgood : ∀ e ∈ store, parent_ok store e.2 = true) :
    ∀ (fuel : Nat) (cur : Option String) (visited : List String)
      (acc l : List RecipeTemplate),
      (∀ t0, acc.head? = some t0 → t0.parent_template_id = cur ∧
        ∃ k, alookup k store = some t0) →
      chainAux store cur fuel visited acc = ChainResult.ok l →
      l = [] ∨ ∃ tLast, l.getLast? = some tLast ∧ tLast.parent_template_id = none := by
  intro fuel
  induction fuel with
  | zero =>
    intro cur visited acc l hinv h
    cases cur with
    | none =>
      have hl : acc.reverse = l := by simpa [chainAux] using h
      cases acc with
      | nil => exact Or.inl (by simp [hl.symm])
      | cons t0 acc' =>
        refine Or.inr ⟨t0, ?_, (hinv t0 rfl).1⟩
        rw [← hl]
        simp [List.getLast?_reverse]
    | some cid =>
      by_cases hc : cid = ""
      · subst hc
        cases acc with
        | nil =>
          have hl : ([] : List RecipeTemplate).reverse = l := by
            simpa [chainAux] using h
          exact Or.inl (by simpa using hl.symm)
        | cons t0 acc' =>
          obtain ⟨hpar, k, hk⟩ := hinv t0 rfl
          have := hgood (k, t0) (alookup_eq_some_mem hk)
          simp [parent_ok, hpar] at this
      · simp [chainAux, hc] at h
  | succ fuel ih =>
    intro cur visited acc l hinv h
    cases cur with
    | none =>
      have hl : acc.reverse = l := by simpa [chainAux] using h
      cases acc with
      | nil => exact Or.inl (by simp [hl.symm])
      | cons t0 acc' =>
        refine Or.inr ⟨t0, ?_, (hinv t0 rfl).1⟩
        rw [← hl]
        simp [List.getLast?_reverse]
    | some cid =>
      by_cases hc : cid = ""
      · subst hc
        cases acc with
        | nil =>
          have hl : ([] : List RecipeTemplate).reverse = l := by
            simpa [chainAux] using h
          exact Or.inl (by simpa using hl.symm)
        | cons t0 acc' =>
          obtain ⟨hpar, k, hk⟩ := hinv t0 rfl
          have := hgood (k, t0) (alookup_eq_some_mem hk)
          simp [parent_ok, hpar] at this
      · by_cases hv : cid ∈ visited
        · simp [chainAux, hc, hv] at h
        · rw [chainAux_step store fuel acc hc hv] at h
          cases hlook : alookup cid store with
          | none =>
            rw [hlook] at h
            cases acc with
            | nil =>
              have hl : ([] : List RecipeTemplate).reverse = l := by simpa using h
              exact Or.inl (by simpa using hl.symm)
            | cons t0 acc' =>
              obtain ⟨hpar, k, hk⟩ := hinv t0 rfl
              have hok := hgood (k, t0) (alookup_eq_some_mem hk)
              simp [parent_ok, hpar, hlook] at hok
          | some t =>
            rw [hlook] at h
            refine ih t.parent_template_id (cid :: visited) (t :: acc) l ?_ h
            intro t0 ht0
            have : t = t0 := by simpa using ht0
            subst this
            exact ⟨rfl, cid, hlook⟩

/-- A successful chain for a stored, nonempty id starts with the stored
template itself. -/
theorem get_inheritance_chain_head (store : Store) {template_id : String}
    {T : RecipeTemplate} (hlook : alookup template_id store = some T)
    (hne : template_id ≠ "") {ch : List RecipeTemplate}
    (hok : get_inheritance_chain store template_id = ChainResult.ok ch) :
    ∃ rest, ch = T :: rest := by
  have hstep := chainAux_step store store.length ([] : List RecipeTemplate) hne
    (by simp : template_id ∉ ([] : List String))
  have h1 : chainAux store T.parent_template_id store.length [template_id] [T] =
      ChainResult.ok ch := by
    simp only [get_inheritance_chain] at hok
    rw [hstep, hlook] at hok
    exact hok
  obtain ⟨suf, hsuf⟩ := chainAux_ok_extends store _ _ _ _ _ h1
  exact ⟨suf, by simpa using hsuf⟩

/-- Unfolding: `resolve_template` on a stored id whose chain walk succeeds folds the
reversed chain onto the freshly stamped all-defaults template. -/
theorem resolve_template_ok (store : Store) {template_id : String}
    {T0 : RecipeTemplate} (hlook : alookup template_id store = some T0)
    {ch : List RecipeTemplate}
    (hch : get_inheritance_chain store template_id = ChainResult.ok ch) :
    resolve_template store template_id =
      .ok (ch.reverse.foldl _merge_templates { id := template_id, name := T0.name }) := by
  simp [resolve_template, hlook, hch]

/-- C1: for a stored template, every parameter-section field of
`resolve(id)` equals the target template's own stored value, because the
chain is folded root-to-leaf and each overlay field unconditionally
replaces the base field — so in a chain A ← B ← C, an ancestor's explicit
value never survives a descendant's default. -/
theorem resolve_sections_equal_target (store : Store) (template_id : String)
    (T : RecipeTemplate) (hlook : alookup template_id store = some T)
    (hne : template_id ≠ "") (r : RecipeTemplate)
    (hres : resolve_template store template_id = Except.ok r) :
    r.temperature = T.temperature ∧ r.gas_flow = T.gas_flow ∧
    r.precursor = T.precursor ∧ r.substrate = T.substrate := by
  cases hch : get_inheritance_chain store template_id with
  | circular => simp [resolve_template, hlook, hch] at hres
  | outOfFuel => simp [resolve_template, hlook, hch] at hres
  | ok ch =>
    obtain ⟨rest, hrest⟩ := get_inheritance_chain_head store hlook hne hch
    rw [resolve_template_ok store hlook hch, hrest] at hres
    have hr : ((T :: rest).reverse).foldl _merge_templates
        { id := template_id, name := T.name } = r := by
      simpa using hres
    rw [← hr, List.reverse_cons, List.foldl_append]
    exact ⟨rfl, rfl, rfl, rfl⟩

/-- Witness for C1 at the three-level chain A ← B ← C where A stores
`peak_temp = 700` and B, C keep the default: the resolved sections are C's
own, so `peak_temp` resolves to 750 and A's explicit 700 does not survive. -/
theorem resolve_sections_equal_target_witness :
    alookup "C" storeABC = some tmplC ∧ "C" ≠ "" ∧
    tmplA.temperature.peak_temp = 700 ∧
    ∃ r, resolve_template storeABC "C" = Except.ok r ∧
      r.temperature = tmplC.temperature ∧ r.temperature.peak_temp = 750 := by
  refine ⟨rfl, by decide, rfl, ?_⟩
  obtain ⟨r, hr⟩ : ∃ r, resolve_template storeABC "C" = Except.ok r := ⟨_, rfl⟩
  have h := resolve_sections_equal_target storeABC "C" tmplC rfl (by decide) r hr
  refine ⟨r, hr, h.1, ?_⟩
  rw [h.1]
  rfl

/-- C3: for every store state, cyclic parent references included, the
inheritance-chain walk terminates — with a finite chain, or with the
`Circular inheritance detected` error exactly when it meets an id it has
already visited; the fuel of the embedding is never exhausted. -/
theorem get_inheritance_chain_terminates (store : Store) (template_id : String) :
    (∃ ch, get_inheritance_chain store template_id = ChainResult.ok ch) ∨
    get_inheritance_chain store template_id = ChainResult.circular := by
  have hfuel : ((store.map Prod.fst).toFinset \ ([] : List String).toFinset).card <
      store.length + 1 := by
    simp only [List.toFinset_nil, Finset.sdiff_empty]
    calc (store.map Prod.fst).toFinset.card
        ≤ (store.map Prod.fst).length := List.toFinset_card_le _
      _ = store.length := by simp
      _ < store.length + 1 := Nat.lt_succ_self _
  have h := chainAux_ne_outOfFuel store (store.length + 1) (some template_id) [] [] hfuel
  cases hres : get_inheritance_chain store template_id with
  | ok ch => exact Or.inl ⟨ch, rfl⟩
  | circular => exact Or.inr rfl
  | outOfFuel => exact absurd hres h

/-- C2 counterexample: updating the stored root `A` to name its own
descendant `B` as parent succeeds, and the committed state has a chain
that re-visits an id — the walk reports circular inheritance. -/
theorem update_cycle_counterexample :
    ∃ s, update_template storeAB updA2 = Except.ok s ∧
      get_inheritance_chain s "A" = ChainResult.circular :=
  ⟨_, rfl, rfl⟩

/-- C2 (amended): `update_template` checks only that the id exists; it
performs no acyclicity validation and commits the template wholesale with
a fresh modified stamp, so an update can introduce a cycle — which is then
caught by `get_inheritance_chain`, not at update time. -/
theorem update_template_commits_without_cycle_check (store : Store)
    (t : RecipeTemplate) :
    (alookup t.id store = none →
      update_template store t = Except.error "Template not found") ∧
    (∀ T0, alookup t.id store = some T0 →
      update_template store t =
        Except.ok (dictInsert store t.id { t with modified_at := datetimeNow })) := by
  constructor
  · intro h
    simp [update_template, h]
  · intro T0 h
    simp [update_template, h]

/-- Witness for C2 (amended): the cycle-creating update of the fixture
store commits the stamped template verbatim. -/
theorem update_template_commits_without_cycle_check_witness :
    alookup "A" storeAB = some updA ∧
    update_template storeAB updA2 =
      Except.ok (dictInsert storeAB "A" { updA2 with modified_at := datetimeNow }) :=
  ⟨rfl, (update_template_commits_without_cycle_check storeAB updA2).2 updA rfl⟩

/-- C4 counterexample: with an empty overlay description the merged
description is the base's, not the overlay's — Python's
`overlay.description or result.description` keeps the base text. -/
theorem merge_metadata_counterexample :
    (_merge_templates mrgBase mrgOverlay).description ≠ mrgOverlay.description := by
  decide

/-- C4 (amended): the merge takes name, parent reference and both
timestamps from the overlay unconditionally; the description is the
overlay's only when the overlay's is non-empty, otherwise the base's
survives. -/
theorem merge_metadata_from_overlay (base overlay : RecipeTemplate) :
    (_merge_templates base overlay).name = overlay.name ∧
    (_merge_templates base overlay).parent_template_id = overlay.parent_template_id ∧
    (_merge_templates base overlay).created_at = overlay.created_at ∧
    (_merge_templates base overlay).modified_at = overlay.modified_at ∧
    (overlay.description ≠ "" →
      (_merge_templates base overlay).description = overlay.description) ∧
    (overlay.description = "" →
      (_merge_templates base overlay).description = base.description) := by
  refine ⟨rfl, rfl, rfl, rfl, ?_, ?_⟩
  · intro h
    simp [_merge_templates, h]
  · intro h
    simp [_merge_templates, h]

/-- Witness for C4 (amended) at the fixture pair with an empty overlay
description. -/
theorem merge_metadata_from_overlay_witness :
    mrgOverlay.description = "" ∧
    (_merge_templates mrgBase mrgOverlay).name = mrgOverlay.name ∧
    (_merge_templates mrgBase mrgOverlay).description = mrgBase.description :=
  ⟨rfl, (merge_metadata_from_overlay mrgBase mrgOverlay).1,
    (merge_metadata_from_overlay mrgBase mrgOverlay).2.2.2.2.2 rfl⟩

/-- C5 counterexample: with a dangling parent reference the walk breaks at
the missing ancestor, so the returned chain's last element still carries a
parent reference. -/
theorem chain_head_last_counterexample :
    get_inheritance_chain storeDangling "A" = ChainResult.ok [dangA] ∧
    dangA.parent_template_id ≠ none :=
  ⟨rfl, by decide⟩

/-- C5 (amended): for a stored template under a nonempty id, a successful
chain walk starts with the template itself; and when every stored parent
reference resolves to a stored template under a nonempty id, the chain's
last element has no parent reference. -/
theorem chain_head_and_last (store : Store) (template_id : String)
    (T : RecipeTemplate) (hlook : alookup template_id store = some T)
    (hne : template_id ≠ "") (ch : List RecipeTemplate)
    (hok : get_inheritance_chain store template_id = ChainResult.ok ch) :
    ch.head? = some T ∧
    ((∀ e ∈ store, parent_ok store e.2 = true) →
      ∃ tLast, ch.getLast? = some tLast ∧ tLast.parent_template_id = none) := by
  obtain ⟨rest, hrest⟩ := get_inheritance_chain_head store hlook hne hok
  constructor
  · rw [hrest]
    rfl
  · intro hgood
    have hstep := chainAux_step store store.length ([] : List RecipeTemplate) hne
      (by simp : template_id ∉ ([] : List String))
    have h1 : chainAux store T.parent_template_id store.length [template_id] [T] =
        ChainResult.ok ch := by
      simp only [get_inheritance_chain] at hok
      rw [hstep, hlook] at hok
      exact hok
    have hinv : ∀ t0, ([T] : List RecipeTemplate).head? = some t0 →
        t0.parent_template_id = T.parent_template_id ∧
        ∃ k, alookup k store = some t0 := by
      intro t0 ht0
      have heq : T = t0 := by simpa using ht0
      subst heq
      exact ⟨rfl, template_id, hlook⟩
    rcases chainAux_getLast store hgood store.length T.parent_template_id
        [template_id] [T] ch hinv h1 with hnil | hres
    · rw [hrest] at hnil
      simp at hnil
    · exact hres

/-- Witness for C5 (amended) on the well-formed three-level fixture store. -/
theorem chain_head_and_last_witness :
    alookup "C" storeABC = some tmplC ∧ "C" ≠ "" ∧
    get_inheritance_chain storeABC "C" = ChainResult.ok [tmplC, tmplB, tmplA] ∧
    (∀ e ∈ storeABC, parent_ok storeABC e.2 = true) ∧
    [tmplC, tmplB, tmplA].head? = some tmplC ∧
    ∃ tLast, [tmplC, tmplB, tmplA].getLast? = some tLast ∧
      tLast.parent_template_id = none := by
  have hgood : ∀ e ∈ storeABC, parent_ok storeABC e.2 = true := by decide
  have h := chain_head_and_last storeABC "C" tmplC rfl (by decide)
    [tmplC, tmplB, tmplA] rfl
  exact ⟨rfl, by decide, rfl, hgood, h.1, h.2 hgood⟩

/-- C6: `delete_template` returns `False` for an unknown id; fails with
the error naming an inheriting child when some stored template's parent
reference equals the id, committing nothing; otherwise it removes exactly
that entry and returns `True` (all other lookups are untouched). -/
theorem delete_template_spec (store : Store) (template_id : String)
    (hnd : (store.map Prod.fst).Nodup) :
    (alookup template_id store = none →
      delete_template store template_id = Except.ok (store, false)) ∧
    ((alookup template_id store).isSome = true →
      (∃ e ∈ store, e.2.parent_template_id = some template_id) →
      ∃ t, (∃ k, (k, t) ∈ store) ∧ t.parent_template_id = some template_id ∧
        delete_template store template_id =
          Except.error ("Cannot delete: template " ++ t.name ++
            " inherits from this template")) ∧
    ((alookup template_id store).isSome = true →
      (∀ e ∈ store, e.2.parent_template_id ≠ some template_id) →
      delete_template store template_id =
        Except.ok (dictPop store template_id, true) ∧
      alookup template_id (dictPop store template_id) = none ∧
      ∀ k, k ≠ template_id →
        alookup k (dictPop store template_id) = alookup k store) := by
  refine ⟨?_, ?_, ?_⟩
  · intro h
    simp [delete_template, h]
  · intro hsome hex
    obtain ⟨v, hv⟩ := Option.isSome_iff_exists.mp hsome
    obtain ⟨e0, he0, hpar⟩ := hex
    have hne : store.find? (fun e => e.2.parent_template_id == some template_id) ≠ none := by
      intro hnone
      have := List.find?_eq_none.mp hnone e0 he0
      simp [hpar] at this
    obtain ⟨res, hres⟩ := Option.ne_none_iff_exists'.mp hne
    have hpres : res.2.parent_template_id = some template_id := by
      have := List.find?_some hres
      simpa using this
    refine ⟨res.2, ⟨res.1, by simpa using List.mem_of_find?_eq_some hres⟩, hpres, ?_⟩
    simp [delete_template, hv, hres]
  · intro hsome hall
    obtain ⟨v, hv⟩ := Option.isSome_iff_exists.mp hsome
    have hfind : store.find? (fun e => e.2.parent_template_id == some template_id) = none := by
      apply List.find?_eq_none.mpr
      intro x hx
      simp [hall x hx]
    refine ⟨by simp [delete_template, hv, hfind], alookup_dictPop_self hnd, ?_⟩
    intro k hk
    exact alookup_dictPop_ne store hk

/-- Witness for C6: deleting the fixture root `A`, whose child `B`
inherits from it, raises the child-naming error. -/
theorem delete_template_spec_witness :
    (storeAB.map Prod.fst).Nodup ∧ (alookup "A" storeAB).isSome = true ∧
    (∃ e ∈ storeAB, e.2.parent_template_id = some "A") ∧
    ∃ t, (∃ k, (k, t) ∈ storeAB) ∧ t.parent_template_id = some "A" ∧
      delete_template storeAB "A" =
        Except.error ("Cannot delete: template " ++ t.name ++
          " inherits from this template") := by
  refine ⟨by decide, rfl, ⟨("B", tmplB), by simp [storeAB], rfl⟩, ?_⟩
  exact (delete_template_spec storeAB "A" (by decide)).2.1 rfl
    ⟨("B", tmplB), by simp [storeAB], rfl⟩

/-- C7 counterexample: resolving a stored root template with a duplicated
tag does not return it unchanged — the merge's set-union collapses the
duplicate. -/
theorem resolve_root_identity_counterexample :
    ∃ r, resolve_template storeDupTag "R" = Except.ok r ∧ r.tags ≠ dupTagT.tags := by
  refine ⟨_, rfl, ?_⟩
  decide

/-- C7 (amended): resolving a stored root template (no parent, nonempty id
equal to its store key, duplicate-free custom-field keys — the dict
invariant) returns a template that equals the stored one on id, name,
description, parent reference, both timestamps, all four parameter
sections and custom fields, and whose tags are duplicate-free and carry
exactly the stored tag set. Only the tags' list order (and duplicate
multiplicity) is not preserved: Python routes them through a set union
whose order is unspecified, so the original claim's full structural
equality fails (see the counterexample); the tag conclusion here is
order-insensitive on purpose. -/
theorem resolve_root_identity (store : Store) (template_id : String)
    (T : RecipeTemplate) (hlook : alookup template_id store = some T)
    (hid : T.id = template_id) (hne : template_id ≠ "")
    (hroot : T.parent_template_id = none)
    (hcf : (T.custom_fields.map Prod.fst).Nodup) :
    ∃ r, resolve_template store template_id = Except.ok r ∧
      r.id = T.id ∧ r.name = T.name ∧ r.description = T.description ∧
      r.parent_template_id = T.parent_template_id ∧
      r.created_at = T.created_at ∧ r.modified_at = T.modified_at ∧
      r.temperature = T.temperature ∧ r.gas_flow = T.gas_flow ∧
      r.precursor = T.precursor ∧ r.substrate = T.substrate ∧
      r.custom_fields = T.custom_fields ∧
      r.tags.Nodup ∧ (∀ x, x ∈ r.tags ↔ x ∈ T.tags) := by
  have hch : get_inheritance_chain store template_id = ChainResult.ok [T] := by
    simp only [get_inheritance_chain]
    rw [chainAux_step store store.length ([] : List RecipeTemplate) hne
      (by simp : template_id ∉ ([] : List String)), hlook]
    show chainAux store T.parent_template_id store.length [template_id] [T] =
      ChainResult.ok [T]
    rw [hroot, chainAux_none]
    rfl
  rw [resolve_template_ok store hlook hch]
  refine ⟨_, rfl, hid.symm, rfl, ?_, rfl, rfl, rfl, rfl, rfl, rfl, rfl,
    dictUpdate_nil T.custom_fields hcf, List.nodup_dedup _, ?_⟩
  · show (if T.description = "" then "" else T.description) = T.description
    by_cases hd : T.description = ""
    · rw [if_pos hd, hd]
    · rw [if_neg hd]
  · intro x
    show x ∈ (([] : List String) ++ T.tags).dedup ↔ x ∈ T.tags
    simp [List.mem_dedup]

/-- Witness for C7 (amended): resolving the fixture root `A` agrees with
it on every field, the tags as a duplicate-free set. -/
theorem resolve_root_identity_witness :
    alookup "A" storeAB = some updA ∧ updA.id = "A" ∧ "A" ≠ "" ∧
    updA.parent_template_id = none ∧
    (updA.custom_fields.map Prod.fst).Nodup ∧
    ∃ r, resolve_template storeAB "A" = Except.ok r ∧
      r.id = updA.id ∧ r.name = updA.name ∧ r.description = updA.description ∧
      r.parent_template_id = updA.parent_template_id ∧
      r.created_at = updA.created_at ∧ r.modified_at = updA.modified_at ∧
      r.temperature = updA.temperature ∧ r.gas_flow = updA.gas_flow ∧
      r.precursor = updA.precursor ∧ r.substrate = updA.substrate ∧
      r.custom_fields = updA.custom_fields ∧
      r.tags.Nodup ∧ (∀ x, x ∈ r.tags ↔ x ∈ updA.tags) := by
  refine ⟨rfl, rfl, by decide, rfl, by decide, ?_⟩
  exact resolve_root_identity storeAB "A" updA rfl rfl (by decide) rfl
    (by decide)

/-- At every known parameter path, a template's own value is never `None`
(section fields are floats and strings), so the nearest-first walk stops at
the chain's first element. -/
theorem effective_walk_cons_known (field_path : String)
    (hp : field_path ∈ get_all_field_paths) (T : RecipeTemplate)
    (rest : List RecipeTemplate) :
    _get_field_value T.toPy field_path ≠ PyVal.null ∧
    effective_walk field_path (T :: rest) =
      some (_get_field_value T.toPy field_path, T.id) := by
  fin_cases hp <;> exact ⟨fun h => PyVal.noConfusion h, rfl⟩

/-- C8 (amended): for a stored template under a nonempty id whose chain
walk succeeds, `get_effective_value` at any known parameter path returns
the template's own stored value — never `None` — with the template's own
id as source; and for an unknown id (empty chain) it returns the path's
value on an all-defaults template with a `None` source instead of failing.
On a cyclic ancestry the call instead raises (see the counterexample). -/
theorem get_effective_value_own (store : Store) (template_id field_path : String)
    (hp : field_path ∈ get_all_field_paths) :
    (∀ T ch, alookup template_id store = some T → template_id ≠ "" →
      get_inheritance_chain store template_id = ChainResult.ok ch →
      _get_field_value T.toPy field_path ≠ PyVal.null ∧
      get_effective_value store template_id field_path =
        Except.ok (_get_field_value T.toPy field_path, some T.id)) ∧
    (alookup template_id store = none →
      get_effective_value store template_id field_path =
        Except.ok (_get_field_value default_template.toPy field_path, none)) := by
  constructor
  · intro T ch hlook hne hok
    obtain ⟨rest, hrest⟩ := get_inheritance_chain_head store hlook hne hok
    obtain ⟨hnn, hwalk⟩ := effective_walk_cons_known field_path hp T rest
    refine ⟨hnn, ?_⟩
    rw [hrest] at hok
    simp [get_effective_value, hok, hwalk]
  · intro hlook
    have hch : get_inheritance_chain store template_id = ChainResult.ok [] := by
      by_cases hne : template_id = ""
      · simp [get_inheritance_chain, chainAux, hne]
      · simp only [get_inheritance_chain]
        rw [chainAux_step store store.length ([] : List RecipeTemplate) hne
          (by simp : template_id ∉ ([] : List String)), hlook]
        rfl
    simp [get_effective_value, hch, effective_walk]

/-- C8 counterexample: for a stored template whose ancestry is cyclic, the
effective-value query raises the circular-inheritance error instead of
returning the template's own stored value with its own id as source. -/
theorem get_effective_value_counterexample :
    alookup "A" storeSelf = some selfA ∧
    "temperature.peak_temp" ∈ get_all_field_paths ∧
    get_effective_value storeSelf "A" "temperature.peak_temp" =
      Except.error "Circular inheritance detected" :=
  ⟨rfl, by decide, rfl⟩

/-- Witness for C8 (amended): on the three-level fixture, `C`'s own
default `peak_temp` 750 is returned with source `C`; an unknown id falls
back to the all-defaults value with a `None` source. -/
theorem get_effective_value_own_witness :
    "temperature.peak_temp" ∈ get_all_field_paths ∧
    alookup "C" storeABC = some tmplC ∧ "C" ≠ "" ∧
    get_inheritance_chain storeABC "C" = ChainResult.ok [tmplC, tmplB, tmplA] ∧
    get_effective_value storeABC "C" "temperature.peak_temp" =
      Except.ok (PyVal.num 750, some "C") ∧
    alookup "X" storeABC = none ∧
    get_effective_value storeABC "X" "temperature.peak_temp" =
      Except.ok (PyVal.num 750, none) := by
  have h := get_effective_value_own storeABC "C" "temperature.peak_temp" (by decide)
  have h2 := get_effective_value_own storeABC "X" "temperature.peak_temp" (by decide)
  refine ⟨by decide, rfl, by decide, rfl, ?_, rfl, ?_⟩
  · exact (h.1 tmplC [tmplC, tmplB, tmplA] rfl (by decide) rfl).2
  · exact h2.2 rfl

/-- C9: on a path not overridden beforehand (and with duplicate-free
justification keys — the dict invariant), `set_override` followed by
`remove_override` restores the effective value to the pre-override
resolved value and leaves neither an override nor a justification entry
for the path; `remove_override` on an absent path is a silent no-op. -/
theorem override_roundtrip (e : Experiment) (resolved : RecipeTemplate)
    (field_path : String) (value : PyVal) (reason : String)
    (hno : alookup field_path e.overrides = none)
    (hnr : (e.override_reasons.map Prod.fst).Nodup) :
    effective_value ((e.set_override field_path value reason).remove_override
        field_path) resolved field_path =
      effective_value e resolved field_path ∧
    alookup field_path ((e.set_override field_path value
        reason).remove_override field_path).overrides = none ∧
    alookup field_path ((e.set_override field_path value
        reason).remove_override field_path).override_reasons = none ∧
    (alookup field_path e.override_reasons = none →
      e.remove_override field_path = e) := by
  have hfresh : ∀ x ∈ e.overrides, x.1 ≠ field_path :=
    (alookup_eq_none_iff _ _).mp hno
  have hins : dictInsert e.overrides field_path value =
      e.overrides ++ [(field_path, value)] :=
    dictInsert_of_not_mem value hfresh
  have hpop : dictPop (e.overrides ++ [(field_path, value)]) field_path =
      e.overrides :=
    dictPop_append_single value hfresh
  have hov : ((e.set_override field_path value reason).remove_override
      field_path).overrides = e.overrides := by
    by_cases hr : reason = "" <;>
      simp [Experiment.set_override, Experiment.remove_override, hr, hins, hpop]
  have hre : alookup field_path ((e.set_override field_path value
      reason).remove_override field_path).override_reasons = none := by
    by_cases hr : reason = ""
    · simp only [Experiment.set_override, Experiment.remove_override, if_pos hr]
      exact alookup_dictPop_self hnr
    · simp only [Experiment.set_override, Experiment.remove_override, if_neg hr]
      exact alookup_dictPop_self (nodup_keys_dictInsert field_path reason hnr)
  refine ⟨?_, ?_, hre, ?_⟩
  · simp [effective_value, hov]
  · rw [hov]
    exact hno
  · intro hrn
    have h1 : dictPop e.overrides field_path = e.overrides :=
      dictPop_of_not_mem hfresh
    have h2 : dictPop e.override_reasons field_path = e.override_reasons :=
      dictPop_of_not_mem ((alookup_eq_none_iff _ _).mp hrn)
    have hrw : e.remove_override field_path =
        { e with overrides := dictPop e.overrides field_path,
                 override_reasons := dictPop e.override_reasons field_path } := rfl
    rw [hrw, h1, h2]

/-- Witness for C9 at a fresh experiment overriding `peak_temp` with a
justification: the round trip restores the resolved value and clears both
maps. -/
theorem override_roundtrip_witness :
    alookup "temperature.peak_temp" expE.overrides = none ∧
    (expE.override_reasons.map Prod.fst).Nodup ∧
    (effective_value ((expE.set_override "temperature.peak_temp"
        (PyVal.num 800) "hotter run").remove_override "temperature.peak_temp")
        tmplC "temperature.peak_temp" =
      effective_value expE tmplC "temperature.peak_temp" ∧
    alookup "temperature.peak_temp"
      ((expE.set_override "temperature.peak_temp" (PyVal.num 800)
        "hotter run").remove_override "temperature.peak_temp").overrides = none ∧
    alookup "temperature.peak_temp"
      ((expE.set_override "temperature.peak_temp" (PyVal.num 800)
        "hotter run").remove_override "temperature.peak_temp").override_reasons
        = none ∧
    (alookup "temperature.peak_temp" expE.override_reasons = none →
      expE.remove_override "temperature.peak_temp" = expE)) :=
  ⟨rfl, by decide,
    override_roundtrip expE tmplC "temperature.peak_temp" (PyVal.num 800)
      "hotter run" rfl (by decide)⟩

/-- The `_get_field_value` worker with explicit exceptions never raises and agrees
with the plain accessor, for every segment list: every `getattr` sits
behind the `hasattr` guard. -/
theorem getFieldGoExc_eq : ∀ (parts : List String) (cur : PyVal),
    getFieldGoExc parts cur = Except.ok (getFieldGo parts cur) := by
  intro parts
  induction parts with
  | nil =>
    intro cur
    rfl
  | cons part rest ih =>
    intro cur
    cases cur with
    | null => rfl
    | num q =>
      cases hb : PyVal.getattrOpt (.num q) part with
      | none => simp [getFieldGoExc, getFieldGo, PyVal.hasattrB, hb]
      | some v =>
        simp [getFieldGoExc, getFieldGo, PyVal.hasattrB, getattrExc, hb, ih]
    | str s =>
      cases hb : PyVal.getattrOpt (.str s) part with
      | none => simp [getFieldGoExc, getFieldGo, PyVal.hasattrB, hb]
      | some v =>
        simp [getFieldGoExc, getFieldGo, PyVal.hasattrB, getattrExc, hb, ih]
    | list xs =>
      cases hb : PyVal.getattrOpt (.list xs) part with
      | none => simp [getFieldGoExc, getFieldGo, PyVal.hasattrB, hb]
      | some v =>
        simp [getFieldGoExc, getFieldGo, PyVal.hasattrB, getattrExc, hb, ih]
    | method m =>
      cases hb : PyVal.getattrOpt (.method m) part with
      | none => simp [getFieldGoExc, getFieldGo, PyVal.hasattrB, hb]
      | some v =>
        simp [getFieldGoExc, getFieldGo, PyVal.hasattrB, getattrExc, hb, ih]
    | obj attrs =>
      cases hb : PyVal.getattrOpt (.obj attrs) part with
      | none => simp [getFieldGoExc, getFieldGo, PyVal.hasattrB, hb]
      | some v =>
        simp [getFieldGoExc, getFieldGo, PyVal.hasattrB, getattrExc, hb, ih]
    | dict entries =>
      cases hb : PyVal.getattrOpt (.dict entries) part with
      | none => simp [getFieldGoExc, getFieldGo, PyVal.hasattrB, hb, ih]
      | some v =>
        simp [getFieldGoExc, getFieldGo, PyVal.hasattrB, getattrExc, hb, ih]

/-- Every error the `_set_field_value` worker can produce is the
`AttributeError` of the final `setattr` on a read-only builtin attribute:
no other step of the traversal can raise. -/
theorem setFieldGo_error_eq : ∀ (parts : List String) (cur value : PyVal)
    (e : String), setFieldGo parts cur value = Except.error e →
    e = "AttributeError" := by
  intro parts
  induction parts with
  | nil =>
    intro cur value e h
    simp [setFieldGo] at h
  | cons part rest ih =>
    intro cur value e h
    cases rest with
    | nil =>
      cases hb : PyVal.getattrOpt cur part with
      | some v =>
        cases cur with
        | obj attrs => simp [setFieldGo, hb, setAttrExc] at h
        | null =>
          simp [setFieldGo, hb, setAttrExc] at h
          exact h.symm
        | num q =>
          simp [setFieldGo, hb, setAttrExc] at h
          exact h.symm
        | str s =>
          simp [setFieldGo, hb, setAttrExc] at h
          exact h.symm
        | dict entries =>
          simp [setFieldGo, hb, setAttrExc] at h
          exact h.symm
        | list xs =>
          simp [setFieldGo, hb, setAttrExc] at h
          exact h.symm
        | method m =>
          simp [setFieldGo, hb, setAttrExc] at h
          exact h.symm
      | none =>
        cases cur <;> simp [setFieldGo, hb] at h
    | cons r2 rs =>
      cases hb : PyVal.getattrOpt cur part with
      | some sub =>
        cases hrec : setFieldGo (r2 :: rs) sub value with
        | ok r => simp [setFieldGo, hb, hrec] at h
        | error e2 =>
          simp [setFieldGo, hb, hrec] at h
          rw [← h]
          exact ih sub value e2 hrec
      | none =>
        cases cur with
        | dict entries =>
          cases hrec : setFieldGo (r2 :: rs)
              ((alookup part entries).getD (.dict [])) value with
          | ok r => simp [setFieldGo, hb, hrec] at h
          | error e2 =>
            simp [setFieldGo, hb, hrec] at h
            rw [← h]
            exact ih _ value e2 hrec
        | null => simp [setFieldGo, hb] at h
        | num q => simp [setFieldGo, hb] at h
        | str s => simp [setFieldGo, hb] at h
        | obj attrs => simp [setFieldGo, hb] at h
        | list xs => simp [setFieldGo, hb] at h
        | method m => simp [setFieldGo, hb] at h

/-- C10 counterexample: `setField` is not total on the real program. The
path `custom_fields.get` navigates into the template's (builtin `dict`)
custom-fields map, `hasattr({}, "get")` is true, and the final `setattr`
on that read-only builtin attribute raises `AttributeError`. -/
theorem set_field_value_counterexample :
    _set_field_value default_template.toPy "custom_fields.get" (PyVal.num 1) =
      Except.error "AttributeError" := rfl

/-- C10 (amended): `getField` is total — it never signals and returns the
value or the absent marker `None` for every object and path. `setField`
is not total: its only failure mode is the final `setattr` raising
`AttributeError` when the `hasattr` guard passes on a read-only builtin
attribute; every call either returns a boolean (false when the final
container supports neither member- nor key-assignment) or raises exactly
that error. -/
theorem field_access_exceptions (obj : PyVal) (path : String) (value : PyVal) :
    _get_field_value_exc obj path = Except.ok (_get_field_value obj path) ∧
    (∀ e, _set_field_value obj path value = Except.error e →
      e = "AttributeError") ∧
    ((∃ r, _set_field_value obj path value = Except.ok r) ∨
      _set_field_value obj path value = Except.error "AttributeError") := by
  refine ⟨getFieldGoExc_eq (splitDot path) obj, ?_, ?_⟩
  · intro e h
    exact setFieldGo_error_eq (splitDot path) obj value e h
  · cases hres : _set_field_value obj path value with
    | ok r => exact Or.inl ⟨r, rfl⟩
    | error e =>
      right
      rw [← setFieldGo_error_eq (splitDot path) obj value e hres]

/-- Witness for C10 (amended) at the read-only-attribute path: the raised
error is exactly `AttributeError`, and the read side stays total there. -/
theorem field_access_exceptions_witness :
    _set_field_value default_template.toPy "custom_fields.get" (PyVal.num 1) =
      Except.error "AttributeError" ∧
    _get_field_value_exc default_template.toPy "custom_fields.get" =
      Except.ok (_get_field_value default_template.toPy "custom_fields.get") ∧
    "AttributeError" = "AttributeError" := by
  have h := field_access_exceptions default_template.toPy "custom_fields.get"
    (PyVal.num 1)
  exact ⟨rfl, h.1, h.2.1 "AttributeError" rfl⟩

end AtomGrowth
